import Mathlib

/-!
Verification of the multi-intent retrieval-and-synthesis pipeline of the
College Buddy application (`app.py`).

The pipeline functions `identify_intents`, `generate_keywords_per_intent`,
`query_for_multiple_intents`, `generate_multi_intent_answer` and `get_answer`
are embedded shallowly.  External services (the chat-completion endpoint, the
two Pinecone indexes composed with `get_embedding`, the `cl100k_base`
tokenizer and the markdown renderer) are abstracted into an environment
record `Env`; the network calls may fail, which is modelled by
`Except String` results, so that the Python exception flow (propagation up to
the `try`/`except` in `get_answer`) is represented faithfully.

Python string primitives used by the code (strip, split on comma, join on a
separator) are given structurally recursive models (`pyStrip`,
`pySplitComma`, `pyJoin`) so that concrete runs reduce inside the kernel.
-/

/-- Python strip: drop whitespace from both ends. -/
def pyStrip (s : String) : String :=
  String.mk (((s.toList.dropWhile Char.isWhitespace).reverse.dropWhile
    Char.isWhitespace).reverse)

/-- Helper for `pySplitComma`: accumulate the current piece (reversed). -/
def splitCommaAux : List Char → List Char → List String
  | [], acc => [String.mk acc.reverse]
  | c :: cs, acc =>
    if c = ',' then String.mk acc.reverse :: splitCommaAux cs []
    else splitCommaAux cs (c :: acc)

/-- Python split on comma; on the empty string it yields a singleton empty string. -/
def pySplitComma (s : String) : List String :=
  splitCommaAux s.toList []

/-- Python join of a list with a separator. -/
def pyJoin (sep : String) : List String → String
  | [] => ""
  | [x] => x
  | x :: y :: xs => x ++ sep ++ pyJoin sep (y :: xs)

/-- Python `dict` lookup (`key in d` / `d[key]`), first matching key. -/
def dictFind : List (String × String) → String → Option String
  | [], _ => none
  | (k, v) :: rest, key => if k = key then some v else dictFind rest key

/-- Python `d.get(key, dflt)`. -/
def dictGet (d : List (String × String)) (key dflt : String) : String :=
  match dictFind d key with
  | some v => v
  | none => dflt

/-- One Pinecone match: an `id` and a string-valued `metadata` dictionary
(`title`, `tags`, `links`, `chunk_text`, `file_name`, ...). -/
structure RMatch where
  id : String
  metadata : List (String × String)
deriving DecidableEq, Repr

/-- The external services used by the pipeline.  `chat sys user` is one
`client.chat.completions.create` call returning the (stripped later) message
content; `metadataQuery t k` and `contentQuery t k` are
`index.query(vector=get_embedding(t), top_k=k, include_metadata=True)` on
`index_metadata` and `index_content` (the embedding call and the similarity
query are composed, either failing fails the composite); `encode`/`decode`
are the `cl100k_base` tokenizer; `markdownRender` is `markdown.markdown`. -/
structure Env where
  chat : String → String → Except String String
  metadataQuery : String → Nat → Except String (List RMatch)
  contentQuery : String → Nat → Except String (List RMatch)
  encode : String → List Nat
  decode : List Nat → String
  markdownRender : String → String

/-- System message of the intent-identification call. -/
def intentSystem : String :=
  "You are an intent identification assistant. Identify and provide only the primary intent or question within the given query."

/-- User message of the intent-identification call. -/
def intentPrompt (query : String) : String :=
  "Identify the main intent or question within this query. Provide only one primary intent: " ++ query

/-- System message of the keyword-generation call. -/
def keywordSystem : String :=
  "You are a keyword extraction assistant. Generate relevant keywords or phrases for the given intent."

/-- User message of the keyword-generation call. -/
def keywordPrompt (intent : String) : String :=
  "Generate 5-10 relevant keywords or phrases for this intent, separated by commas: " ++ intent

/-- System message of the answer-synthesis call (the College Buddy persona). -/
def collegeBuddySystem : String :=
  "You are College Buddy, an AI assistant designed to help students with their academic queries. Your primary function is to analyze and provide insights based on the context of uploaded documents. Please adhere to the following guidelines:\n1. Focus on addressing all the intents of the query and give related documents for all the intents.\n2. Provide accurate, relevant information derived from the provided context.\n3. If the context doesn\x27t contain sufficient information to answer the query, state this clearly.\n4. Maintain a friendly, supportive tone appropriate for assisting students.\n5. Provide concise yet comprehensive answers, breaking down complex concepts when necessary.\n6. If asked about topics beyond the scope of the provided context, politely state that you don\x27t have that information.\n7. Encourage critical thinking by guiding students towards understanding rather than simply providing direct answers.\n8. Respect academic integrity by not writing essays or completing assignments on behalf of students.\n9. Suggest additional resources or related documents when relevant to the query.\n10. Include related links in your response when they provide valuable additional information."

/-- Model of `query_pinecone(query, index_content)`: runs the content-index similarity
query and joins, per match, `chunk_text` when present, otherwise the
placeholder naming `file_name`. -/
def query_pinecone (env : Env) (query : String) : Except String String :=
  match env.contentQuery query 5 with
  | .error e => .error e
  | .ok results =>
    .ok (pyJoin " " (results.map (fun m =>
      match dictFind m.metadata "chunk_text" with
      | some t => t
      | none => "Content from " ++ dictGet m.metadata "file_name" "unknown file")))

/-- Model of `identify_intents(query)`: one completion call; returns `[intent]` for a
non-empty stripped response, else `[]`. -/
def identify_intents (env : Env) (query : String) : Except String (List String) :=
  match env.chat intentSystem (intentPrompt query) with
  | .error e => .error e
  | .ok intentResponse =>
    let intent := pyStrip intentResponse
    .ok (if intent = "" then [] else [intent])

/-- Model of `generate_keywords_per_intent(intents)`: one completion call per intent,
the stripped response split on commas, every piece stripped. -/
def generate_keywords_per_intent (env : Env) :
    List String → Except String (List (String × List String))
  | [] => .ok []
  | intent :: rest =>
    match env.chat keywordSystem (keywordPrompt intent) with
    | .error e => .error e
    | .ok keywordResponse =>
      match generate_keywords_per_intent env rest with
      | .error e => .error e
      | .ok restOut =>
        .ok ((intent, (pySplitComma (pyStrip keywordResponse)).map pyStrip) :: restOut)

/-- The per-intent value stored in `intent_data`. -/
structure IntentData where
  metadata_results : List RMatch
  pinecone_context : String
  related_documents : List String
  related_links : List String
deriving DecidableEq, Repr

/-- Loop body of `query_for_multiple_intents`: the second argument is the
running `all_metadata_results` accumulator used for cross-intent dedup. -/
def qfmiLoop (env : Env) :
    List (String × List String) → List RMatch →
    Except String (List (String × IntentData))
  | [], _ => .ok []
  | (intent, keywords) :: rest, allMeta =>
    match env.metadataQuery (pyJoin " " keywords) 5 with
    | .error e => .error e
    | .ok metadata_results =>
      let new_metadata_results :=
        metadata_results.filter (fun m => !((allMeta.map RMatch.id).contains m.id))
      match query_pinecone env (pyJoin " " keywords) with
      | .error e => .error e
      | .ok pinecone_context =>
        match qfmiLoop env rest (allMeta ++ new_metadata_results) with
        | .error e => .error e
        | .ok restOut =>
          .ok ((intent,
            { metadata_results := new_metadata_results
              pinecone_context := pinecone_context
              related_documents :=
                new_metadata_results.map (fun r => dictGet r.metadata "title" "")
              related_links :=
                new_metadata_results.map (fun r => dictGet r.metadata "links" "") }) :: restOut)

/-- Model of `query_for_multiple_intents(intent_keywords)`: starts with an empty
`all_metadata_results` list. -/
def query_for_multiple_intents (env : Env)
    (intent_keywords : List (String × List String)) :
    Except String (List (String × IntentData)) :=
  qfmiLoop env intent_keywords []

/-- The context string of `generate_multi_intent_answer`: one labeled block
per intent, holding the intent name and its `pinecone_context`. -/
def buildContext (intent_data : List (String × IntentData)) : String :=
  pyJoin "\n" (intent_data.map (fun p =>
    "Intent: " ++ p.1 ++ "\n" ++ "Pinecone Context: " ++ p.2.pinecone_context ++ "\n"))

/-- The constant `max_context_tokens` in `generate_multi_intent_answer`. -/
def max_context_tokens : Nat := 4000

/-- The truncation `tokenizer.decode(tokenizer.encode(context)[:maxTokens])`. -/
def truncate_to (env : Env) (context : String) (maxTokens : Nat) : String :=
  env.decode ((env.encode context).take maxTokens)

/-- Model of `generate_multi_intent_answer(query, intent_data)`: token-truncated
context, one synthesis completion call, stripped response. -/
def generate_multi_intent_answer (env : Env) (query : String)
    (intent_data : List (String × IntentData)) : Except String String :=
  let truncated_context := truncate_to env (buildContext intent_data) max_context_tokens
  match env.chat collegeBuddySystem
      ("Query: " ++ query ++ "\n\nContext: " ++ truncated_context) with
  | .error e => .error e
  | .ok response => .ok (pyStrip response)

/-- The serialized inner metadata dictionary built by `get_answer`. -/
structure SerMeta where
  title : String
  tags : String
  links : String
deriving DecidableEq, Repr

/-- One serialized metadata match of `get_answer`. -/
structure SerMatch where
  id : String
  metadata : SerMeta
deriving DecidableEq, Repr

/-- One serialized intent entry of `get_answer`. -/
structure SerIntentData where
  metadata_results : List SerMatch
  pinecone_context : String
  related_documents : List String
  related_links : List String
deriving DecidableEq, Repr

/-- The `serializable_intent_data` construction of `get_answer`. -/
def serialize_intent_data (intent_data : List (String × IntentData)) :
    List (String × SerIntentData) :=
  intent_data.map (fun p => (p.1,
    { metadata_results := p.2.metadata_results.map (fun result =>
        { id := result.id
          metadata :=
            { title := dictGet result.metadata "title" ""
              tags := dictGet result.metadata "tags" ""
              links := dictGet result.metadata "links" "" } })
      pinecone_context := p.2.pinecone_context
      related_documents := p.2.related_documents
      related_links := p.2.related_links }))

/-- The fixed apology returned by the `except` branch of `get_answer`. -/
def apology : String :=
  "<p>I\x27m sorry, I encountered an error while processing your query.</p>"

/-- The `try` block of `get_answer`: the four pipeline stages chained, the
markdown rendering of the final answer, and the serialized intent data. -/
def get_answer_body (env : Env) (query : String) :
    Except String (String × List (String × SerIntentData)) :=
  match identify_intents env query with
  | .error e => .error e
  | .ok intents =>
    match generate_keywords_per_intent env intents with
    | .error e => .error e
    | .ok intent_keywords =>
      match query_for_multiple_intents env intent_keywords with
      | .error e => .error e
      | .ok intent_data =>
        match generate_multi_intent_answer env query intent_data with
        | .error e => .error e
        | .ok final_answer =>
          .ok (env.markdownRender final_answer, serialize_intent_data intent_data)

/-- Model of `get_answer(query)`: the `try` block with its catch-all `except` branch
returning the apology and an empty mapping. -/
def get_answer (env : Env) (query : String) :
    String × List (String × SerIntentData) :=
  match get_answer_body env query with
  | .ok r => r
  | .error _ => (apology, [])

/-- All metadata-match ids of a pipeline result, in order. -/
def collectIds : List (String × IntentData) → List String
  | [] => []
  | p :: rest => p.2.metadata_results.map RMatch.id ++ collectIds rest

/-- Whether an `Except` result is a success. -/
def exceptIsOk {α : Type} : Except String α → Bool
  | .ok _ => true
  | .error _ => false

/-- A concrete metadata match used for concrete runs. -/
def mA : RMatch := { id := "1", metadata := [("title", "T1"), ("tags", "tg"), ("links", "L1")] }

/-- A concrete content-index match carrying a chunk text. -/
def mC : RMatch := { id := "c1", metadata := [("chunk_text", "CT")] }

/-- A concrete metadata match with id 7. -/
def m7 : RMatch := { id := "7", metadata := [("title", "T7")] }

/-- A concrete metadata match with id 8 and no metadata fields. -/
def m8 : RMatch := { id := "8", metadata := [] }

/-- An environment on which every service call succeeds: the intent call
answers with a padded intent, the keyword call with a comma list, the
synthesis call with a padded answer; the tokenizer is character-level. -/
def envOk : Env :=
  { chat := fun sys _user =>
      if sys = intentSystem then .ok " Major declaration process "
      else if sys = keywordSystem then .ok "a, b ,c"
      else .ok " final answer "
    metadataQuery := fun _ _ => .ok [mA]
    contentQuery := fun _ _ => .ok [mC]
    encode := fun s => s.toList.map Char.toNat
    decode := fun ts => String.mk (ts.map Char.ofNat)
    markdownRender := fun s => "<p>" ++ s ++ "</p>" }

/-- An environment whose completion service always fails. -/
def envFail : Env :=
  { chat := fun _ _ => .error "boom"
    metadataQuery := fun _ _ => .error "boom"
    contentQuery := fun _ _ => .error "boom"
    encode := fun _ => []
    decode := fun _ => ""
    markdownRender := fun s => s }

/-- An environment whose completion service returns whitespace only. -/
def envBlank : Env :=
  { chat := fun _ _ => .ok "   "
    metadataQuery := fun _ _ => .ok []
    contentQuery := fun _ _ => .ok []
    encode := fun _ => []
    decode := fun _ => ""
    markdownRender := fun s => s }

/-- An environment whose completion service returns a fixed comma list. -/
def envKw : Env :=
  { chat := fun _ _ => .ok "a, b ,c"
    metadataQuery := fun _ _ => .ok []
    contentQuery := fun _ _ => .ok []
    encode := fun _ => []
    decode := fun _ => ""
    markdownRender := fun s => s }

/-- An environment whose completion service returns the empty string. -/
def envEmptyKw : Env :=
  { chat := fun _ _ => .ok ""
    metadataQuery := fun _ _ => .ok [m7]
    contentQuery := fun _ _ => .ok []
    encode := fun _ => []
    decode := fun _ => ""
    markdownRender := fun s => s }

/-- An environment whose metadata index returns the same two matches for
every query, so that a second intent would re-retrieve them. -/
def envDup : Env :=
  { chat := fun _ _ => .ok ""
    metadataQuery := fun _ _ => .ok [m7, m8]
    contentQuery := fun _ _ => .ok []
    encode := fun _ => []
    decode := fun _ => ""
    markdownRender := fun s => s }

/-- Two intents with distinct keyword sets, fed to the aggregator. -/
def dupPairs : List (String × List String) := [("I1", ["x"]), ("I2", ["y"])]

/-- The aggregator output of `envDup` on `dupPairs`: the second intent loses
both matches to the first. -/
def outDup : List (String × IntentData) :=
  [("I1",
    { metadata_results := [m7, m8]
      pinecone_context := ""
      related_documents := ["T7", ""]
      related_links := ["", ""] }),
   ("I2",
    { metadata_results := []
      pinecone_context := ""
      related_documents := []
      related_links := [] })]

/-- The `get_answer` output of `envOk` on the query string q. -/
def outOkSer : String × List (String × SerIntentData) :=
  ("<p>final answer</p>",
   [("Major declaration process",
     { metadata_results := [{ id := "1", metadata := { title := "T1", tags := "tg", links := "L1" } }]
       pinecone_context := "CT"
       related_documents := ["T1"]
       related_links := ["L1"] })])

/-- The aggregator output of `envOk` on the expanded keywords. -/
def outOkIdata : List (String × IntentData) :=
  [("Major declaration process",
    { metadata_results := [mA]
      pinecone_context := "CT"
      related_documents := ["T1"]
      related_links := ["L1"] })]

/-- Intent data whose matches list holds one match; used to show that the
assembled context does not depend on the matches. -/
def idataA : IntentData :=
  { metadata_results := [{ id := "7", metadata := [("title", "ZQXW")] }]
    pinecone_context := "PC"
    related_documents := ["ZQXW"]
    related_links := [""] }

/-- Intent data with the same pinecone context and no matches. -/
def idataB : IntentData :=
  { metadata_results := []
    pinecone_context := "PC"
    related_documents := []
    related_links := [] }

theorem qfmiLoop_keys (env : Env) (pairs : List (String × List String)) :
    ∀ (acc : List RMatch) (out : List (String × IntentData)),
      qfmiLoop env pairs acc = .ok out → out.map Prod.fst = pairs.map Prod.fst := by
  induction pairs with
  | nil =>
    intro acc out h
    simp only [qfmiLoop, Except.ok.injEq] at h
    subst h
    rfl
  | cons p rest ih =>
    obtain ⟨intent, keywords⟩ := p
    intro acc out h
    cases hm : env.metadataQuery (pyJoin " " keywords) 5 with
    | error e => simp only [qfmiLoop, hm] at h; cases h
    | ok metadata_results =>
      cases hp : query_pinecone env (pyJoin " " keywords) with
      | error e => simp only [qfmiLoop, hm, hp] at h; cases h
      | ok pctx =>
        cases hr : qfmiLoop env rest
            (acc ++ metadata_results.filter (fun m => !((acc.map RMatch.id).contains m.id))) with
        | error e => simp only [qfmiLoop, hm, hp, hr] at h; cases h
        | ok restOut =>
          simp only [qfmiLoop, hm, hp, hr, Except.ok.injEq] at h
          subst h
          simp [ih _ _ hr]

theorem qfmiLoop_shape (env : Env) (pairs : List (String × List String)) :
    ∀ (acc : List RMatch) (out : List (String × IntentData)),
      qfmiLoop env pairs acc = .ok out →
      ∀ p ∈ out,
        p.2.related_documents = p.2.metadata_results.map (fun r => dictGet r.metadata "title" "") ∧
        p.2.related_links = p.2.metadata_results.map (fun r => dictGet r.metadata "links" "") := by
  induction pairs with
  | nil =>
    intro acc out h
    simp only [qfmiLoop, Except.ok.injEq] at h
    subst h
    intro p hp
    cases hp
  | cons p rest ih =>
    obtain ⟨intent, keywords⟩ := p
    intro acc out h
    cases hm : env.metadataQuery (pyJoin " " keywords) 5 with
    | error e => simp only [qfmiLoop, hm] at h; cases h
    | ok metadata_results =>
      cases hp : query_pinecone env (pyJoin " " keywords) with
      | error e => simp only [qfmiLoop, hm, hp] at h; cases h
      | ok pctx =>
        cases hr : qfmiLoop env rest
            (acc ++ metadata_results.filter (fun m => !((acc.map RMatch.id).contains m.id))) with
        | error e => simp only [qfmiLoop, hm, hp, hr] at h; cases h
        | ok restOut =>
          simp only [qfmiLoop, hm, hp, hr, Except.ok.injEq] at h
          subst h
          intro q hq
          rcases List.mem_cons.mp hq with hhead | htail
          · subst hhead
            exact ⟨rfl, rfl⟩
          · exact ih _ _ hr q htail

theorem qfmiLoop_fresh (env : Env) (pairs : List (String × List String)) :
    ∀ (acc : List RMatch) (out : List (String × IntentData)),
      qfmiLoop env pairs acc = .ok out →
      ∀ p ∈ out, ∀ a ∈ p.2.metadata_results.map RMatch.id, a ∉ acc.map RMatch.id := by
  induction pairs with
  | nil =>
    intro acc out h
    simp only [qfmiLoop, Except.ok.injEq] at h
    subst h
    intro p hp
    cases hp
  | cons p rest ih =>
    obtain ⟨intent, keywords⟩ := p
    intro acc out h
    cases hm : env.metadataQuery (pyJoin " " keywords) 5 with
    | error e => simp only [qfmiLoop, hm] at h; cases h
    | ok metadata_results =>
      cases hp : query_pinecone env (pyJoin " " keywords) with
      | error e => simp only [qfmiLoop, hm, hp] at h; cases h
      | ok pctx =>
        cases hr : qfmiLoop env rest
            (acc ++ metadata_results.filter (fun m => !((acc.map RMatch.id).contains m.id))) with
        | error e => simp only [qfmiLoop, hm, hp, hr] at h; cases h
        | ok restOut =>
          simp only [qfmiLoop, hm, hp, hr, Except.ok.injEq] at h
          subst h
          intro q hq a ha
          rcases List.mem_cons.mp hq with hhead | htail
          · subst hhead
            simp only [List.mem_map] at ha
            obtain ⟨m, hmem, rfl⟩ := ha
            have := List.of_mem_filter hmem
            simp only [Bool.not_eq_true'] at this
            intro hacc
            have : (acc.map RMatch.id).contains m.id = true := by
              exact List.elem_iff.mpr hacc
            simp_all
          · intro hacc
            apply ih _ _ hr q htail a ha
            simp only [List.map_append, List.mem_append]
            exact Or.inl hacc

theorem qfmiLoop_pairwise (env : Env) (pairs : List (String × List String)) :
    ∀ (acc : List RMatch) (out : List (String × IntentData)),
      qfmiLoop env pairs acc = .ok out →
      List.Pairwise (fun x y => ∀ a, a ∈ x.2.metadata_results.map RMatch.id →
        a ∉ y.2.metadata_results.map RMatch.id) out := by
  induction pairs with
  | nil =>
    intro acc out h
    simp only [qfmiLoop, Except.ok.injEq] at h
    subst h
    exact List.Pairwise.nil
  | cons p rest ih =>
    obtain ⟨intent, keywords⟩ := p
    intro acc out h
    cases hm : env.metadataQuery (pyJoin " " keywords) 5 with
    | error e => simp only [qfmiLoop, hm] at h; cases h
    | ok metadata_results =>
      cases hp : query_pinecone env (pyJoin " " keywords) with
      | error e => simp only [qfmiLoop, hm, hp] at h; cases h
      | ok pctx =>
        cases hr : qfmiLoop env rest
            (acc ++ metadata_results.filter (fun m => !((acc.map RMatch.id).contains m.id))) with
        | error e => simp only [qfmiLoop, hm, hp, hr] at h; cases h
        | ok restOut =>
          simp only [qfmiLoop, hm, hp, hr, Except.ok.injEq] at h
          subst h
          refine List.Pairwise.cons ?_ (ih _ _ hr)
          intro q hq a ha hq2
          have := qfmiLoop_fresh env rest _ _ hr q hq a hq2
          simp only [List.map_append, List.mem_append, not_or] at this
          exact this.2 ha

theorem qfmiLoop_nodup (env : Env)
    (hsrc : ∀ s k ms, env.metadataQuery s k = .ok ms → (ms.map RMatch.id).Nodup)
    (pairs : List (String × List String)) :
    ∀ (acc : List RMatch) (out : List (String × IntentData)),
      qfmiLoop env pairs acc = .ok out → (acc.map RMatch.id).Nodup →
      ((acc.map RMatch.id) ++ collectIds out).Nodup := by
  induction pairs with
  | nil =>
    intro acc out h hacc
    simp only [qfmiLoop, Except.ok.injEq] at h
    subst h
    simpa [collectIds] using hacc
  | cons p rest ih =>
    obtain ⟨intent, keywords⟩ := p
    intro acc out h hacc
    cases hm : env.metadataQuery (pyJoin " " keywords) 5 with
    | error e => simp only [qfmiLoop, hm] at h; cases h
    | ok metadata_results =>
      cases hp : query_pinecone env (pyJoin " " keywords) with
      | error e => simp only [qfmiLoop, hm, hp] at h; cases h
      | ok pctx =>
        cases hr : qfmiLoop env rest
            (acc ++ metadata_results.filter (fun m => !((acc.map RMatch.id).contains m.id))) with
        | error e => simp only [qfmiLoop, hm, hp, hr] at h; cases h
        | ok restOut =>
          simp only [qfmiLoop, hm, hp, hr, Except.ok.injEq] at h
          subst h
          have hnew : ((metadata_results.filter
              (fun m => !((acc.map RMatch.id).contains m.id))).map RMatch.id).Nodup :=
            ((List.filter_sublist metadata_results).map RMatch.id).nodup (hsrc _ _ _ hm)
          have hdisj : (acc.map RMatch.id).Disjoint
              ((metadata_results.filter
                (fun m => !((acc.map RMatch.id).contains m.id))).map RMatch.id) := by
            intro a hmemacc hmemnew
            simp only [List.mem_map] at hmemnew
            obtain ⟨m, hmem, rfl⟩ := hmemnew
            have hpred := List.of_mem_filter hmem
            simp only [Bool.not_eq_true'] at hpred
            have : (acc.map RMatch.id).contains m.id = true := List.elem_iff.mpr hmemacc
            simp_all
          have hacc2 : ((acc ++ metadata_results.filter
              (fun m => !((acc.map RMatch.id).contains m.id))).map RMatch.id).Nodup := by
            rw [List.map_append, List.nodup_append]
            exact ⟨hacc, hnew, hdisj⟩
          have := ih _ _ hr hacc2
          rw [List.map_append, List.append_assoc] at this
          simpa [collectIds] using this

theorem generate_keywords_keys (env : Env) :
    ∀ (intents : List String) (ik : List (String × List String)),
      generate_keywords_per_intent env intents = .ok ik → ik.map Prod.fst = intents := by
  intro intents
  induction intents with
  | nil =>
    intro ik h
    simp only [generate_keywords_per_intent, Except.ok.injEq] at h
    subst h
    rfl
  | cons intent rest ih =>
    intro ik h
    cases hc : env.chat keywordSystem (keywordPrompt intent) with
    | error e => simp only [generate_keywords_per_intent, hc] at h; cases h
    | ok resp =>
      cases hr : generate_keywords_per_intent env rest with
      | error e => simp only [generate_keywords_per_intent, hc, hr] at h; cases h
      | ok restOut =>
        simp only [generate_keywords_per_intent, hc, hr, Except.ok.injEq] at h
        subst h
        simp [ih _ hr]

theorem serialize_keys (d : List (String × IntentData)) :
    (serialize_intent_data d).map Prod.fst = d.map Prod.fst := by
  simp [serialize_intent_data, List.map_map, Function.comp]

/-- Claim C2: across one pipeline run, a later IntentResult never repeats a
metadata-match id of an earlier one; assuming each metadata-index response
has pairwise distinct ids (the id is the unique key of the index), the union
of all match ids of the returned mapping has no duplicates. -/
theorem dedup_invariant (env : Env) (pairs : List (String × List String))
    (out : List (String × IntentData))
    (h : query_for_multiple_intents env pairs = .ok out) :
    List.Pairwise (fun x y => ∀ a, a ∈ x.2.metadata_results.map RMatch.id →
      a ∉ y.2.metadata_results.map RMatch.id) out ∧
    ((∀ s k ms, env.metadataQuery s k = .ok ms → (ms.map RMatch.id).Nodup) →
      (collectIds out).Nodup) := by
  constructor
  · exact qfmiLoop_pairwise env pairs [] out h
  · intro hsrc
    have := qfmiLoop_nodup env hsrc pairs [] out h (by simp)
    simpa using this

/-- Witness for C2: on an index that returns ids 7 and 8 for every query and
two intents, the collected ids are without duplicates (the second intent
keeps none of the re-retrieved matches). -/
theorem dedup_invariant_witness : (collectIds outDup).Nodup := by
  have h := dedup_invariant envDup dupPairs outDup (by rfl)
  refine h.2 ?_
  intro s k ms hm
  injection hm with hm
  subst hm
  decide

/-- Claim C9: the aggregator returns a mapping with exactly the input keys,
and per intent the related documents and links are the title and links
fields of the matches, in order, defaulting to the empty string. -/
theorem retrieval_shape (env : Env) (pairs : List (String × List String))
    (out : List (String × IntentData))
    (h : query_for_multiple_intents env pairs = .ok out) :
    out.map Prod.fst = pairs.map Prod.fst ∧
    ∀ p ∈ out,
      p.2.related_documents = p.2.metadata_results.map (fun r => dictGet r.metadata "title" "") ∧
      p.2.related_links = p.2.metadata_results.map (fun r => dictGet r.metadata "links" "") :=
  ⟨qfmiLoop_keys env pairs [] out h, qfmiLoop_shape env pairs [] out h⟩

/-- Witness for C9: on a concrete run the keys and the projections agree. -/
theorem retrieval_shape_witness :
    outDup.map Prod.fst = ["I1", "I2"] ∧
    (outDup.map (fun p => p.2.related_documents)) = [["T7", ""], []] := by
  have h := retrieval_shape envDup dupPairs outDup (by rfl)
  exact ⟨h.1.trans (by rfl), by decide⟩

/-- Claim C3: for every context and budget N, the truncated context encodes
back to at most N tokens, for any tokenizer adapter whose re-encoding of a
decoded token sequence does not yield more tokens; the budget used by the
synthesizer is the hard-coded default 4000. -/
theorem assemble_token_budget (env : Env) (context : String) (N : Nat)
    (hround : ∀ ts : List Nat, (env.encode (env.decode ts)).length ≤ ts.length) :
    (env.encode (truncate_to env context N)).length ≤ N ∧
    truncate_to env context max_context_tokens = truncate_to env context 4000 := by
  refine ⟨?_, rfl⟩
  calc (env.encode (env.decode ((env.encode context).take N))).length
      ≤ ((env.encode context).take N).length := hround _
    _ ≤ N := by rw [List.length_take]; exact min_le_left _ _

/-- Witness for C3: a character-level tokenizer and budget 3. -/
theorem assemble_token_budget_witness :
    (envOk.encode (truncate_to envOk "context string" 3)).length ≤ 3 := by
  refine (assemble_token_budget envOk "context string" 3 ?_).1
  intro ts
  simp [envOk, String.toList]

/-- Claim C4: intent extraction performs the single intent completion call
and returns the singleton of the stripped response when it is non-empty and
the empty list when the response strips to empty; its result depends on the
environment only through that one call. -/
theorem identify_intents_contract (env env2 : Env) (query s : String)
    (h : env.chat intentSystem (intentPrompt query) = .ok s) :
    identify_intents env query =
      .ok (if pyStrip s = "" then [] else [pyStrip s]) ∧
    (env2.chat intentSystem (intentPrompt query) = env.chat intentSystem (intentPrompt query) →
      identify_intents env2 query = identify_intents env query) := by
  constructor
  · simp [identify_intents, h]
  · intro hagree
    simp [identify_intents, hagree]

/-- Witness for C4: a whitespace-only response yields the empty list, a
padded response yields the singleton of its stripped text. -/
theorem identify_intents_contract_witness :
    identify_intents envBlank "q" = .ok [] ∧
    identify_intents envOk "q" = .ok ["Major declaration process"] := by
  constructor
  · exact ((identify_intents_contract envBlank envBlank "q" "   " rfl).1).trans (by rfl)
  · exact ((identify_intents_contract envOk envOk "q" " Major declaration process " rfl).1).trans (by rfl)

/-- Claim C5: keyword expansion strips the response per intent, splits it on
commas and strips every piece; on the response a comma b comma c with inner
padding this yields exactly the three stripped keywords, without a trailing
empty element. -/
theorem generate_keywords_split (env : Env) (intent s : String)
    (h : env.chat keywordSystem (keywordPrompt intent) = .ok s) :
    generate_keywords_per_intent env [intent] =
      .ok [(intent, (pySplitComma (pyStrip s)).map pyStrip)] ∧
    (pySplitComma (pyStrip "a, b ,c")).map pyStrip = ["a", "b", "c"] := by
  refine ⟨?_, by decide⟩
  simp [generate_keywords_per_intent, h]

/-- Witness for C5: the completion response of the spec scenario. -/
theorem generate_keywords_split_witness :
    generate_keywords_per_intent envKw ["I"] = .ok [("I", ["a", "b", "c"])] :=
  ((generate_keywords_split envKw "I" "a, b ,c" rfl).1).trans (by rfl)

/-- Claim C6: an error raised by any of the four pipeline stages inside
get_answer is swallowed; the caller receives the fixed apology string and an
empty result mapping. -/
theorem get_answer_catch_all (env : Env) (query e : String)
    (h : identify_intents env query = .error e ∨
      (∃ intents, identify_intents env query = .ok intents ∧
        generate_keywords_per_intent env intents = .error e) ∨
      (∃ intents ik, identify_intents env query = .ok intents ∧
        generate_keywords_per_intent env intents = .ok ik ∧
        query_for_multiple_intents env ik = .error e) ∨
      (∃ intents ik idata, identify_intents env query = .ok intents ∧
        generate_keywords_per_intent env intents = .ok ik ∧
        query_for_multiple_intents env ik = .ok idata ∧
        generate_multi_intent_answer env query idata = .error e)) :
    get_answer env query = (apology, []) := by
  rcases h with h1 | ⟨intents, h1, h2⟩ | ⟨intents, ik, h1, h2, h3⟩ |
    ⟨intents, ik, idata, h1, h2, h3, h4⟩
  · simp [get_answer, get_answer_body, h1]
  · simp [get_answer, get_answer_body, h1, h2]
  · simp [get_answer, get_answer_body, h1, h2, h3]
  · simp [get_answer, get_answer_body, h1, h2, h3, h4]

/-- Witness for C6: a failing completion service produces the apology and an
empty mapping. -/
theorem get_answer_catch_all_witness : get_answer envFail "q" = (apology, []) :=
  get_answer_catch_all envFail "q" "boom" (Or.inl rfl)

/-- Counterexample for C7: two intent-data mappings with the same intent
name and content context but different metadata matches assemble to the same
context string, so the context contains no rendering of the matches. -/
theorem buildContext_no_matches_cex :
    buildContext [("I", idataA)] = buildContext [("I", idataB)] ∧
    idataA.metadata_results ≠ idataB.metadata_results := ⟨rfl, by decide⟩

/-- Claim C7 (amended): per intent in mapping order, a labeled block holding
only the intent name and its content context is appended; the assembled
context depends on nothing else. -/
theorem buildContext_blocks (d1 d2 : List (String × IntentData))
    (h : d1.map (fun p => (p.1, p.2.pinecone_context)) =
      d2.map (fun p => (p.1, p.2.pinecone_context))) :
    buildContext d1 = buildContext d2 ∧
    buildContext d1 = pyJoin "\n" (d1.map (fun p =>
      "Intent: " ++ p.1 ++ "\n" ++ "Pinecone Context: " ++ p.2.pinecone_context ++ "\n")) := by
  refine ⟨?_, rfl⟩
  have hm : ∀ d : List (String × IntentData),
      d.map (fun p => "Intent: " ++ p.1 ++ "\n" ++ "Pinecone Context: " ++
        p.2.pinecone_context ++ "\n") =
      (d.map (fun p => (p.1, p.2.pinecone_context))).map (fun q =>
        "Intent: " ++ q.1 ++ "\n" ++ "Pinecone Context: " ++ q.2 ++ "\n") := by
    intro d
    rw [List.map_map]
    rfl
  unfold buildContext
  rw [hm d1, hm d2, h]

/-- Witness for C7 (amended): one concrete block. -/
theorem buildContext_blocks_witness :
    buildContext [("I", idataA)] = "Intent: I\nPinecone Context: PC\n" :=
  ((buildContext_blocks [("I", idataA)] [("I", idataB)] rfl).2).trans (by rfl)

/-- Claim C8: an empty keyword completion yields the singleton list holding
the empty string, and the aggregator succeeds on that keyword set whenever
the two similarity queries on the joined (empty) string succeed: the code
has no failing branch of its own on empty keywords. -/
theorem empty_keywords_tolerated (env : Env) (intent : String)
    (h : env.chat keywordSystem (keywordPrompt intent) = .ok "") :
    generate_keywords_per_intent env [intent] = .ok [(intent, [""])] ∧
    (∀ ms ctx, env.metadataQuery "" 5 = .ok ms → env.contentQuery "" 5 = .ok ctx →
      exceptIsOk (query_for_multiple_intents env [(intent, [""])]) = true) := by
  constructor
  · simp only [generate_keywords_per_intent, h]
    rfl
  · intro ms ctx hm hc
    have hj : pyJoin " " [""] = "" := rfl
    simp only [query_for_multiple_intents, qfmiLoop, hj, hm, query_pinecone, hc, exceptIsOk]

/-- Witness for C8: the empty completion response and succeeding indexes. -/
theorem empty_keywords_tolerated_witness :
    generate_keywords_per_intent envEmptyKw ["I"] = .ok [("I", [""])] ∧
    exceptIsOk (query_for_multiple_intents envEmptyKw [("I", [""])]) = true := by
  have h := empty_keywords_tolerated envEmptyKw "I" rfl
  exact ⟨h.1, h.2 [m7] [] rfl rfl⟩

/-- Claim C10: on success the response handed to the caller is the markdown
rendering of the synthesized answer, never the raw completion text; on the
error path it is the fixed apology, which is an HTML paragraph literal. -/
theorem response_is_rendered_markdown (env : Env) (query : String)
    (intents : List String) (ik : List (String × List String))
    (idata : List (String × IntentData)) (ans : String)
    (h1 : identify_intents env query = .ok intents)
    (h2 : generate_keywords_per_intent env intents = .ok ik)
    (h3 : query_for_multiple_intents env ik = .ok idata)
    (h4 : generate_multi_intent_answer env query idata = .ok ans) :
    (get_answer env query).1 = env.markdownRender ans ∧
    (∀ env2 q2 e, get_answer_body env2 q2 = .error e → (get_answer env2 q2).1 = apology) ∧
    apology = "<p>" ++ "I\x27m sorry, I encountered an error while processing your query." ++ "</p>" := by
  refine ⟨?_, ?_, rfl⟩
  · simp [get_answer, get_answer_body, h1, h2, h3, h4]
  · intro env2 q2 e he
    simp [get_answer, he]

/-- Witness for C10: a concrete successful run whose response is the
markdown-wrapped answer. -/
theorem response_is_rendered_markdown_witness :
    (get_answer envOk "q").1 = "<p>final answer</p>" := by
  have h := response_is_rendered_markdown envOk "q" ["Major declaration process"]
    [("Major declaration process", ["a", "b", "c"])] outOkIdata "final answer"
    rfl rfl rfl rfl
  exact h.1.trans (by rfl)

/-- Counterexample for C1: on a run whose identified intent differs from the
query, the returned result mapping is keyed by the Phase-1 intent, not by
the original query, so no Phase-2 retrieval keyed by the query produced it. -/
theorem get_answer_keyed_by_intent_cex :
    (get_answer envOk "q").2.map Prod.fst = ["Major declaration process"] ∧
    (get_answer envOk "q").2.map Prod.fst ≠ ["q"] := ⟨rfl, by decide⟩

/-- Claim C1 (amended): get_answer is a single-pass pipeline: intent
extraction, per-intent keyword expansion, one retrieval pass, one context
assembly and one synthesis; the returned mapping is keyed by the Phase-1
intents and there is no second retrieval with an expanded keyword set. -/
theorem get_answer_single_pass (env : Env) (query : String) (intents : List String)
    (out : String × List (String × SerIntentData))
    (h1 : identify_intents env query = .ok intents)
    (h2 : get_answer_body env query = .ok out) :
    get_answer env query = out ∧ out.2.map Prod.fst = intents := by
  refine ⟨by simp [get_answer, h2], ?_⟩
  simp only [get_answer_body, h1] at h2
  cases hik : generate_keywords_per_intent env intents with
  | error e => simp only [hik] at h2; cases h2
  | ok ik =>
    simp only [hik] at h2
    cases hq : query_for_multiple_intents env ik with
    | error e => simp only [hq] at h2; cases h2
    | ok idata =>
      simp only [hq] at h2
      cases ha : generate_multi_intent_answer env query idata with
      | error e => simp only [ha] at h2; cases h2
      | ok ans =>
        simp only [ha] at h2
        injection h2 with h2
        subst h2
        rw [serialize_keys, qfmiLoop_keys env ik [] idata hq,
          generate_keywords_keys env intents ik hik]

/-- Witness for C1 (amended): the concrete successful run, keyed by the one
identified intent. -/
theorem get_answer_single_pass_witness :
    get_answer envOk "q" = outOkSer ∧
    outOkSer.2.map Prod.fst = ["Major declaration process"] :=
  get_answer_single_pass envOk "q" ["Major declaration process"] outOkSer rfl rfl
